import Mathlib

/-!
Shallow embedding of the oodoo-backend gig/marketplace service.

The embedding follows the mounted code (`src/app.js` mounts
`src/routes/gigs.js` for the gig endpoints and the socket controller in
`src/unnamed/part_001` for chat).  Firestore documents are modelled as plain
Lean structures; document statuses are the literal strings the source
stores; server timestamps are natural numbers; coordinates are rationals.
A Firestore transaction is modelled as a function that either returns the
whole post-state (commit) or an error (abort), so a failed body leaves the
pre-state untouched, matching `db.runTransaction` semantics.  Concurrent
transactional accept attempts are modelled by their serializations: the
store's optimistic transaction executes the attempts in some serial order,
so a universally quantified list of callers covers every schedule.
-/

namespace Oodoo

abbrev UserId := String
abbrev GigId := String

/-- A Firestore GeoPoint (`admin.firestore.GeoPoint(latitude, longitude)`),
with exact rational coordinates. -/
structure GeoPoint where
  latitude : ℚ
  longitude : ℚ
  deriving DecidableEq

/-- A document in the `gigs` collection, as written by the handlers in
`src/routes/gigs.js`.  `status` is the literal string stored by the code
(one of "open", "accepted", "completed", "cancelled" when written by this
backend). -/
structure Gig where
  userId : UserId
  title : String
  description : String
  price : ℚ
  createdAt : Nat
  status : String
  exactLocation : Option GeoPoint := none
  approximateLocation : Option GeoPoint := none
  acceptedBy : Option UserId := none
  acceptedAt : Option Nat := none
  deriving DecidableEq

/-- A document of the `assignments` subcollection of a gig, keyed by the
accepting user's id (`gigRef.collection('assignments').doc(req.userId)`). -/
structure Assignment where
  gigId : GigId
  userId : UserId
  currentStatus : String
  createdAt : Nat
  updatedAt : Nat
  deriving DecidableEq

/-- A document of the `history` subcollection under an assignment
(auto-generated id). -/
structure HistoryEntry where
  status : String
  timestamp : Nat
  changedBy : UserId
  deriving DecidableEq

/-- The store state relevant to one gig: the gig document itself (if it
exists), its `assignments` subcollection keyed by user id, and the history
documents, each tagged with the user id of the assignment it lives under. -/
structure GigDocState where
  gig : Option Gig
  assignments : List (UserId × Assignment)
  history : List (UserId × HistoryEntry)
  deriving DecidableEq

/-- Firestore `set` on a subcollection keyed by a chosen document id:
overwrite the document with that key, or create it. -/
def setDoc (key : UserId) (a : Assignment) :
    List (UserId × Assignment) → List (UserId × Assignment)
  | [] => [(key, a)]
  | (k, v) :: rest =>
      if k = key then (key, a) :: rest else (k, v) :: setDoc key a rest

/-- The failure cases of `POST /gigs/:id/accept` (`src/routes/gigs.js`
lines 146-204), in the order the handler distinguishes them:
gig absent (404), self-accept (403), not open (400), and a store/commit
failure surfaced as 500. -/
inductive AcceptError
  | gigNotFound
  | cannotAcceptOwn
  | gigNotOpen
  | storeFailure
  deriving DecidableEq

/-- The body of the `db.runTransaction` callback of
`POST /gigs/:id/accept` (`src/routes/gigs.js` lines 146-188): read the gig,
throw if absent, if owned by the caller, or if not "open"; otherwise buffer
the gig update, the assignment `set` keyed by the caller's id, and one new
history document.  Returns the state after all buffered writes. -/
def acceptGigTxnBody (now : Nat) (id : GigId) (callerId : UserId)
    (s : GigDocState) : Except AcceptError GigDocState :=
  match s.gig with
  | none => .error .gigNotFound
  | some gigData =>
    if gigData.userId = callerId then .error .cannotAcceptOwn
    else if gigData.status ≠ "open" then .error .gigNotOpen
    else
      .ok { gig := some { gigData with
              acceptedBy := some callerId
              status := "accepted"
              acceptedAt := some now }
            assignments := setDoc callerId
              ⟨id, callerId, "accepted", now, now⟩ s.assignments
            history := s.history ++ [(callerId, ⟨"accepted", now, callerId⟩)] }

/-- One `POST /gigs/:id/accept` request: run the transaction body; a thrown
error aborts with no writes, and a commit failure (`commitOk = false`) also
leaves the store untouched, per Firestore transaction atomicity.  Returns
the response outcome and the post-request store state. -/
def acceptGig (commitOk : Bool) (now : Nat) (id : GigId) (callerId : UserId)
    (s : GigDocState) : Except AcceptError Unit × GigDocState :=
  match acceptGigTxnBody now id callerId s with
  | .error e => (.error e, s)
  | .ok s' => if commitOk then (.ok (), s') else (.error .storeFailure, s)

/-- A serial execution of accept attempts by a list of callers (the
serialization Firestore's transactions give to any concurrent schedule),
with successful commits. -/
def runAccepts (now : Nat) (id : GigId) (s : GigDocState) :
    List UserId → List (Except AcceptError Unit) × GigDocState
  | [] => ([], s)
  | u :: us =>
      let step := acceptGig true now id u s
      let rest := runAccepts now id step.2 us
      (step.1 :: rest.1, rest.2)

/-- The `validStatuses` list of the `PATCH /gigs/:id/status` handler
(`src/routes/gigs.js` line 215). -/
def validStatuses : List String := ["open", "accepted", "completed", "cancelled"]

/-- The failure cases of `PATCH /gigs/:id/status`: invalid status (400),
gig absent (404), caller is not the creator (403), store failure (500). -/
inductive UpdateError
  | invalidStatus
  | gigNotFound
  | notAllowed
  deriving DecidableEq

/-- Model of `PATCH /gigs/:id/status` (`src/routes/gigs.js` lines 212-239): reject
an invalid status before touching the store, then read the gig, check
existence and ownership, and `update({ status })` — only the status field.
The second component counts store reads performed (`gigRef.get()` calls). -/
def updateGigStatus (status : String) (callerId : UserId) (s : GigDocState) :
    (Except UpdateError Unit × GigDocState) × Nat :=
  if status ∉ validStatuses then ((.error .invalidStatus, s), 0)
  else
    match s.gig with
    | none => ((.error .gigNotFound, s), 1)
    | some gigData =>
      if gigData.userId ≠ callerId then ((.error .notAllowed, s), 1)
      else ((.ok (), { s with gig := some { gigData with status := status } }), 1)

/-- Outcome of `GET /gigs/user/:userId`. -/
inductive ListUserGigsResult
  | unauthorized
  | ok (gigs : List (GigId × Gig))
  deriving DecidableEq

/-- Model of `GET /gigs/user/:userId` (`src/routes/gigs.js` lines 121-135): a 403
before any store access when the caller is not the target user, otherwise
one query for the gigs whose `userId` equals the target.  The second
component counts store reads performed. -/
def getGigsByUser (callerId userId : UserId) (gigs : List (GigId × Gig)) :
    ListUserGigsResult × Nat :=
  if callerId ≠ userId then (.unauthorized, 0)
  else (.ok (gigs.filter fun p => p.2.userId = userId), 1)

/-- The location blur of `POST /gigs` (`src/routes/gigs.js` lines 52-53):
`Math.round(x * 10) / 10` on each axis.  JavaScript `Math.round` rounds
half toward positive infinity, which is `round` on ℚ in Mathlib
(`round q = ⌊q + 1/2⌋`). -/
def blurAxis (x : ℚ) : ℚ := round (x * 10) / 10

/-- The gig document assembled by `POST /gigs` (`src/routes/gigs.js` lines
40-57) for an already-validated body: creator, server creation time, status
"open", and, when a location is supplied, the exact GeoPoint plus the
blurred approximate GeoPoint (the original `location` field is dropped). -/
def buildGigData (now : Nat) (callerId : UserId) (title description : String)
    (price : ℚ) (location : Option GeoPoint) : Gig :=
  { userId := callerId
    title := title
    description := description
    price := price
    createdAt := now
    status := "open"
    exactLocation := location.map fun l => ⟨l.latitude, l.longitude⟩
    approximateLocation := location.map fun l =>
      ⟨blurAxis l.latitude, blurAxis l.longitude⟩ }

/-- A document of the `chats/{gigId}/messages` subcollection
(`src/unnamed/part_001`): sender id, body, and the timestamp taken at write
time (`new Date()`). -/
structure ChatMessage where
  userId : UserId
  message : String
  timestamp : Nat
  deriving DecidableEq

/-- To whom an emitted socket event is delivered: `socket.emit` (the one
connection), `io.to(gigId).emit` (every connection in the room), or
`socket.to(gigId).emit` (every connection in the room except the sender). -/
inductive EmitTarget
  | selfOnly
  | room (gigId : GigId)
  | roomExceptSelf (gigId : GigId)
  deriving DecidableEq

/-- The server-to-client events of the chat controller. -/
inductive SocketEvent
  | chatHistory (target : EmitTarget) (messages : List ChatMessage)
  | newMessage (target : EmitTarget) (msg : ChatMessage)
  | userTyping (target : EmitTarget) (userId : UserId)
  deriving DecidableEq

/-- The set of socket ids an emit reaches, given the emitting connection's
id and the current room membership. -/
def EmitTarget.recipients (selfId : String) (rooms : GigId → List String) :
    EmitTarget → List String
  | .selfOnly => [selfId]
  | .room g => rooms g
  | .roomExceptSelf g => (rooms g).filter fun c => c ≠ selfId

/-- Firestore `orderBy('timestamp')`: the query result sorted by timestamp
ascending. -/
def orderByTimestamp (msgs : List ChatMessage) : List ChatMessage :=
  msgs.insertionSort fun a b => a.timestamp ≤ b.timestamp

/-- The `joinGigChat` handler (`src/unnamed/part_001` lines 8-18):
`socket.join(gigId)` adds the connection to the room, then the message
subcollection for that gig is queried ordered by timestamp and emitted as
one `chatHistory` event via `socket.emit` — to the joining connection only.
Returns the updated room membership and the emitted events. -/
def joinGigChat (rooms : GigId → List String) (selfId : String)
    (store : GigId → List ChatMessage) (gigId : GigId) :
    (GigId → List String) × List SocketEvent :=
  (fun g => if g = gigId then selfId :: rooms g else rooms g,
   [.chatHistory .selfOnly (orderByTimestamp (store gigId))])

/-- The `sendMessage` handler (`src/unnamed/part_001` lines 21-25): build
`msgData`, `await` its write into `chats/{gigId}/messages`, then broadcast
it to the room with `io.to(gigId).emit('newMessage', msgData)`.  If the
awaited write rejects (`writeOk = false`) the handler stops before the
broadcast, so the store and the event list are unchanged. -/
def sendMessage (writeOk : Bool) (now : Nat) (store : GigId → List ChatMessage)
    (gigId : GigId) (userId : UserId) (message : String) :
    (GigId → List ChatMessage) × List SocketEvent :=
  let msgData : ChatMessage := ⟨userId, message, now⟩
  if writeOk then
    (fun g => if g = gigId then store g ++ [msgData] else store g,
     [.newMessage (.room gigId) msgData])
  else (store, [])

/-! ### Concrete sample documents used to instantiate the theorems -/

/-- A concrete open gig created by "alice". -/
def gigOpenSample : Gig :=
  { userId := "alice", title := "Mow the lawn please",
    description := "Needs mowing this weekend", price := 50,
    createdAt := 1, status := "open" }

/-- A concrete completed gig created by "alice". -/
def gigCompletedSample : Gig := { gigOpenSample with status := "completed" }

/-- Store state holding only `gigOpenSample`. -/
def stateOpenSample : GigDocState := ⟨some gigOpenSample, [], []⟩

/-- Store state holding only `gigCompletedSample`. -/
def stateCompletedSample : GigDocState := ⟨some gigCompletedSample, [], []⟩

/-! ### Helper lemmas about the accept transaction -/

/-- Evaluating the accept handler on an existing open gig owned by someone
else: the transaction commits all three writes. -/
theorem acceptGig_open_eq (now : Nat) (id : GigId) (callerId : UserId)
    (s : GigDocState) (g : Gig) (hg : s.gig = some g)
    (hopen : g.status = "open") (hne : g.userId ≠ callerId) :
    acceptGig true now id callerId s =
      (.ok (), { gig := some { g with
                   acceptedBy := some callerId
                   status := "accepted"
                   acceptedAt := some now }
                 assignments := setDoc callerId
                   ⟨id, callerId, "accepted", now, now⟩ s.assignments
                 history := s.history ++
                   [(callerId, ⟨"accepted", now, callerId⟩)] }) := by
  simp [acceptGig, acceptGigTxnBody, hg, hopen, hne]

/-- Evaluating the accept handler on an existing non-open gig owned by
someone else: the transaction aborts with the not-open error. -/
theorem acceptGig_notOpen_eq (commitOk : Bool) (now : Nat) (id : GigId)
    (callerId : UserId) (s : GigDocState) (g : Gig) (hg : s.gig = some g)
    (hst : g.status ≠ "open") (hne : g.userId ≠ callerId) :
    acceptGig commitOk now id callerId s = (.error .gigNotOpen, s) := by
  simp [acceptGig, acceptGigTxnBody, hg, hst, hne]

/-- A serial run of accept attempts against a non-open gig, none of the
callers being the creator, fails every attempt and leaves the state
untouched. -/
theorem runAccepts_notOpen (now : Nat) (id : GigId) (s : GigDocState)
    (g : Gig) (us : List UserId) (hg : s.gig = some g)
    (hst : g.status ≠ "open") (hnc : ∀ v ∈ us, v ≠ g.userId) :
    runAccepts now id s us = (us.map fun _ => .error .gigNotOpen, s) := by
  induction us with
  | nil => simp [runAccepts]
  | cons u us ih =>
      have hne : g.userId ≠ u := fun h => hnc u (by simp) h.symm
      have hstep := acceptGig_notOpen_eq true now id u s g hg hst hne
      simp [runAccepts, hstep, ih fun v hv => hnc v (by simp [hv])]

/-! ### Claim theorems for the accept path -/

/-- C2: every failing accept attempt — gig absent, self-accept, gig not
open, or store/commit failure — leaves the gig document, the assignments
subcollection, and the history subcollection exactly as they were: the
transaction either commits all writes or none. -/
theorem accept_failure_is_atomic (commitOk : Bool) (now : Nat) (id : GigId)
    (callerId : UserId) (s : GigDocState) (e : AcceptError)
    (h : (acceptGig commitOk now id callerId s).1 = .error e) :
    (acceptGig commitOk now id callerId s).2 = s := by
  unfold acceptGig at h ⊢
  cases hb : acceptGigTxnBody now id callerId s with
  | error e' => simp [hb]
  | ok s' =>
      simp only [hb] at h ⊢
      cases commitOk <;> simp_all

/-- Witness for C2: a failing accept (absent gig) at a concrete state. -/
theorem accept_failure_is_atomic_witness :
    (acceptGig true 1 "g1" "bob" ⟨none, [], []⟩).2 = ⟨none, [], []⟩ :=
  accept_failure_is_atomic true 1 "g1" "bob" ⟨none, [], []⟩ .gigNotFound rfl

/-- C3: accepting an existing open gig of another creator succeeds and, in
one transaction, sets status to "accepted", acceptedBy to the caller,
acceptedAt to the server timestamp, creates the one assignment document
keyed by the caller's id with currentStatus "accepted", and appends the one
history entry recording "accepted" with the caller as actor; an absent gig
fails with the not-found error. -/
theorem accept_success_postcondition (now : Nat) (id : GigId)
    (callerId : UserId) (s : GigDocState) :
    (∀ g, s.gig = some g → g.status = "open" → g.userId ≠ callerId →
      acceptGig true now id callerId s =
        (.ok (), { gig := some { g with
                     acceptedBy := some callerId
                     status := "accepted"
                     acceptedAt := some now }
                   assignments := setDoc callerId
                     ⟨id, callerId, "accepted", now, now⟩ s.assignments
                   history := s.history ++
                     [(callerId, ⟨"accepted", now, callerId⟩)] })) ∧
    (s.gig = none →
      acceptGig true now id callerId s = (.error .gigNotFound, s)) := by
  constructor
  · intro g hg hopen hne
    exact acceptGig_open_eq now id callerId s g hg hopen hne
  · intro hnone
    simp [acceptGig, acceptGigTxnBody, hnone]

/-- Witness for C3: a concrete successful accept. -/
theorem accept_success_postcondition_witness :
    acceptGig true 7 "g1" "bob" stateOpenSample =
      (.ok (), ⟨some { gigOpenSample with
                         status := "accepted"
                         acceptedBy := some "bob"
                         acceptedAt := some 7 },
                [("bob", ⟨"g1", "bob", "accepted", 7, 7⟩)],
                [("bob", ⟨"accepted", 7, "bob"⟩)]⟩) :=
  (accept_success_postcondition 7 "g1" "bob" stateOpenSample).1 gigOpenSample
    rfl rfl (by decide)

/-- C4: the creator's own accept attempt fails with the cannot-accept-own
conflict and leaves the state unchanged, whatever the gig's status
("open", "accepted", "completed" or "cancelled") — the ownership check
precedes the status check. -/
theorem self_accept_rejected (commitOk : Bool) (now : Nat) (id : GigId)
    (s : GigDocState) (g : Gig) (hg : s.gig = some g)
    (_hstatus : g.status ∈ validStatuses) :
    acceptGig commitOk now id g.userId s = (.error .cannotAcceptOwn, s) := by
  simp [acceptGig, acceptGigTxnBody, hg]

/-- Witness for C4: a creator self-accepting a concrete completed gig. -/
theorem self_accept_rejected_witness :
    acceptGig true 9 "g1" "alice" stateCompletedSample =
      (.error .cannotAcceptOwn, stateCompletedSample) :=
  self_accept_rejected true 9 "g1" stateCompletedSample gigCompletedSample
    rfl (by decide)

/-! ### Claim theorems for the status-update and listing endpoints -/

/-- C5: when the caller is the creator and the requested status is one of
the four valid strings, the update succeeds whatever the prior status —
including regressing "accepted" back to "open" — and overwrites only the
gig's status field: every other gig field (in particular acceptedBy and
acceptedAt), the assignments subcollection, and the history subcollection
are untouched, and exactly one store read is performed. -/
theorem update_status_frame (status : String) (callerId : UserId)
    (s : GigDocState) (g : Gig) (hst : status ∈ validStatuses)
    (hg : s.gig = some g) (hown : g.userId = callerId) :
    updateGigStatus status callerId s =
      ((.ok (), { s with gig := some { g with status := status } }), 1) := by
  simp [updateGigStatus, hst, hg, hown]

/-- Witness for C5: the creator regresses a concrete completed gig back to
"open"; acceptedBy, acceptedAt, assignments and history are unchanged. -/
theorem update_status_frame_witness :
    updateGigStatus "open" "alice" stateCompletedSample =
      ((.ok (), ⟨some { gigCompletedSample with status := "open" }, [], []⟩),
       1) :=
  update_status_frame "open" "alice" stateCompletedSample gigCompletedSample
    (by decide) rfl rfl

/-- C10: a request with a status outside the four valid strings is
rejected with the invalid-status validation error, with zero store reads
and no state change, for every store state (gig absent or present) and
every caller (creator or not): the validity check strictly precedes the
existence and ownership checks. -/
theorem invalid_status_rejected_before_read (status : String)
    (callerId : UserId) (s : GigDocState) (h : status ∉ validStatuses) :
    updateGigStatus status callerId s = ((.error .invalidStatus, s), 0) := by
  simp [updateGigStatus, h]

/-- Witness for C10: an invalid status against an absent gig and a caller
who is not a creator of anything. -/
theorem invalid_status_rejected_before_read_witness :
    updateGigStatus "archived" "mallory" ⟨none, [], []⟩ =
      ((.error .invalidStatus, ⟨none, [], []⟩), 0) :=
  invalid_status_rejected_before_read "archived" "mallory" ⟨none, [], []⟩
    (by decide)

/-- C9: listing another user's gigs is rejected as unauthorized with zero
store reads, for every store content. -/
theorem unauthorized_listing (callerId userId : UserId)
    (gigs : List (GigId × Gig)) (h : callerId ≠ userId) :
    getGigsByUser callerId userId gigs = (.unauthorized, 0) := by
  simp [getGigsByUser, h]

/-- Witness for C9: caller "bob" asking for the gigs of user "alice". -/
theorem unauthorized_listing_witness :
    getGigsByUser "bob" "alice" [("g1", gigOpenSample)] = (.unauthorized, 0) :=
  unauthorized_listing "bob" "alice" [("g1", gigOpenSample)] (by decide)

/-! ### Claim theorem for the location blur -/

/-- C6: a created gig stores the supplied location unchanged as the exact
coordinate and its per-axis one-decimal rounding as the approximate
coordinate; at the concrete input (37.7749, -122.4194) the stored
approximate location is exactly (37.8, -122.4) and the exact location is
preserved unchanged. -/
theorem location_blur (now : Nat) (callerId : UserId)
    (title description : String) (price : ℚ) (l : GeoPoint) :
    (buildGigData now callerId title description price (some l)).exactLocation
        = some l ∧
    (buildGigData now callerId title description price
        (some l)).approximateLocation
        = some ⟨round (l.latitude * 10) / 10, round (l.longitude * 10) / 10⟩ ∧
    (buildGigData now callerId title description price
        (some ⟨37.7749, -122.4194⟩)).exactLocation
        = some ⟨37.7749, -122.4194⟩ ∧
    (buildGigData now callerId title description price
        (some ⟨37.7749, -122.4194⟩)).approximateLocation
        = some ⟨37.8, -122.4⟩ := by
  refine ⟨rfl, rfl, rfl, ?_⟩
  simp only [buildGigData, blurAxis, Option.map_some]
  norm_num [round_eq]

/-! ### Claim theorem for the single-acceptor invariant -/

/-- C1: any serialization of N accept attempts on an open gig by N
distinct users, none of them the creator, has exactly one success — the
first transaction to run, which commits the transition to "accepted" —
while every other attempt observes a non-open gig and fails with the
not-open conflict; the final acceptedBy is exactly the successful caller,
so the gig never has more than one acceptor. -/
theorem single_acceptor (now : Nat) (id : GigId) (s : GigDocState) (g : Gig)
    (u : UserId) (us : List UserId) (hg : s.gig = some g)
    (hopen : g.status = "open") (_hnodup : (u :: us).Nodup)
    (hnc : ∀ v ∈ u :: us, v ≠ g.userId) :
    (runAccepts now id s (u :: us)).1 =
        .ok () :: us.map (fun _ => .error .gigNotOpen) ∧
    ∃ g', (runAccepts now id s (u :: us)).2.gig = some g' ∧
        g'.status = "accepted" ∧ g'.acceptedBy = some u := by
  have hne : g.userId ≠ u := fun h => hnc u (by simp) h.symm
  have hstep := acceptGig_open_eq now id u s g hg hopen hne
  have hrest := runAccepts_notOpen now id ((acceptGig true now id u s).2)
      { g with acceptedBy := some u, status := "accepted", acceptedAt := some now }
      us (by rw [hstep]) (by simp)
      (fun v hv => by simpa using hnc v (by simp [hv]))
  rw [hstep] at hrest
  constructor
  · simp [runAccepts, hstep, hrest]
  · refine ⟨{ g with acceptedBy := some u, status := "accepted", acceptedAt := some now },
      ?_, rfl, rfl⟩
    simp [runAccepts, hrest, hstep]

/-- Witness for C1: two contenders "bob" and "carol" racing for a concrete
open gig; the serialization where "bob" runs first. -/
theorem single_acceptor_witness :
    (runAccepts 5 "g1" stateOpenSample ["bob", "carol"]).1 =
        [.ok (), .error .gigNotOpen] ∧
    ∃ g', (runAccepts 5 "g1" stateOpenSample ["bob", "carol"]).2.gig = some g'
        ∧ g'.status = "accepted" ∧ g'.acceptedBy = some "bob" :=
  single_acceptor 5 "g1" stateOpenSample gigOpenSample "bob" ["carol"] rfl
    rfl (by decide) (by decide)

/-! ### Claim theorem for persist-before-broadcast -/

/-- C8: a sendMessage event persists the constructed record before any
broadcast: if the store write fails nothing is broadcast and the store is
unchanged; if it succeeds the record is appended to the gig's message
subcollection and the very record that was persisted is broadcast as one
newMessage event to the gig's room, which reaches every connection
currently in that room; every broadcast message is present in the
post-state store. -/
theorem persist_before_broadcast (writeOk : Bool) (now : Nat)
    (store : GigId → List ChatMessage) (gigId : GigId) (userId : UserId)
    (message : String) :
    (writeOk = false →
      sendMessage writeOk now store gigId userId message = (store, [])) ∧
    (writeOk = true →
      (sendMessage writeOk now store gigId userId message).1 gigId =
          store gigId ++ [⟨userId, message, now⟩] ∧
      (sendMessage writeOk now store gigId userId message).2 =
          [.newMessage (.room gigId) ⟨userId, message, now⟩]) ∧
    (∀ e ∈ (sendMessage writeOk now store gigId userId message).2, ∃ m,
      e = .newMessage (.room gigId) m ∧
      m ∈ (sendMessage writeOk now store gigId userId message).1 gigId) ∧
    (∀ selfId rooms,
      EmitTarget.recipients selfId rooms (.room gigId) = rooms gigId) := by
  cases writeOk <;>
    simp [sendMessage, EmitTarget.recipients]

/-- Witness for C8: a failed write at a concrete input broadcasts nothing
and leaves the store as it was. -/
theorem persist_before_broadcast_witness :
    sendMessage false 3 (fun _ => []) "g1" "bob" "hi" = (fun _ => [], []) :=
  (persist_before_broadcast false 3 (fun _ => []) "g1" "bob" "hi").1 rfl

/-! ### Claim theorem for chat history replay -/

instance : IsTotal ChatMessage fun a b => a.timestamp ≤ b.timestamp :=
  ⟨fun a b => Nat.le_total a.timestamp b.timestamp⟩

instance : IsTrans ChatMessage fun a b => a.timestamp ≤ b.timestamp :=
  ⟨fun _ _ _ => Nat.le_trans⟩

/-- A timestamp-sorted permutation of three messages with strictly
increasing timestamps is exactly the increasing arrangement. -/
theorem sorted_perm_triple (d : List ChatMessage) (m1 m2 m3 : ChatMessage)
    (h12 : m1.timestamp < m2.timestamp) (h23 : m2.timestamp < m3.timestamp)
    (hperm : d.Perm [m1, m2, m3])
    (hsorted : d.Sorted fun a b => a.timestamp ≤ b.timestamp) :
    d = [m1, m2, m3] := by
  have hlen : d.length = 3 := by simpa using hperm.length_eq
  have hmapped : (d.map ChatMessage.timestamp).Sorted (fun x y : Nat => x ≤ y) := by
    rw [List.Sorted, List.pairwise_map]
    exact hsorted
  have htriple : List.Sorted (fun x y : Nat => x ≤ y)
      [m1.timestamp, m2.timestamp, m3.timestamp] := by
    simp [List.sorted_cons]
    omega
  have hmap := List.eq_of_perm_of_sorted (hperm.map ChatMessage.timestamp)
      hmapped htriple
  obtain ⟨a, b, c, rfl⟩ : ∃ a b c, d = [a, b, c] := by
    cases d with
    | nil => simp at hlen
    | cons a t =>
      cases t with
      | nil => simp at hlen
      | cons b t2 =>
        cases t2 with
        | nil => simp at hlen
        | cons c t3 =>
          cases t3 with
          | nil => exact ⟨a, b, c, rfl⟩
          | cons x t4 => simp at hlen
  simp only [List.map_cons, List.map_nil, List.cons.injEq, and_true] at hmap
  obtain ⟨ha1, hb2, hc3⟩ := hmap
  have ha : a ∈ [m1, m2, m3] := hperm.subset (by simp)
  have hb : b ∈ [m1, m2, m3] := hperm.subset (by simp)
  have hc : c ∈ [m1, m2, m3] := hperm.subset (by simp)
  simp only [List.mem_cons, List.mem_singleton, List.not_mem_nil,
    or_false] at ha hb hc
  rcases ha with rfl | rfl | rfl <;> rcases hb with rfl | rfl | rfl <;>
    rcases hc with rfl | rfl | rfl <;> first | rfl | omega

/-- C7: joining a gig's chat emits exactly one chatHistory event, addressed
to the joining connection only (its recipient set is the single joining
socket), whose payload is the gig's full persisted message history sorted
ascending by timestamp (a permutation of the stored messages); in
particular, whenever the stored messages are any arrangement of three
messages with timestamps t1 < t2 < t3, the delivered array is exactly
[t1, t2, t3]. -/
theorem chat_replay_ordering (rooms : GigId → List String) (selfId : String)
    (store : GigId → List ChatMessage) (gigId : GigId) :
    ((joinGigChat rooms selfId store gigId).2 =
        [.chatHistory .selfOnly (orderByTimestamp (store gigId))] ∧
      (orderByTimestamp (store gigId)).Perm (store gigId) ∧
      (orderByTimestamp (store gigId)).Sorted
        (fun a b => a.timestamp ≤ b.timestamp) ∧
      EmitTarget.recipients selfId (joinGigChat rooms selfId store gigId).1
        .selfOnly = [selfId]) ∧
    ∀ m1 m2 m3 : ChatMessage, m1.timestamp < m2.timestamp →
      m2.timestamp < m3.timestamp → (store gigId).Perm [m1, m2, m3] →
      (joinGigChat rooms selfId store gigId).2 =
        [.chatHistory .selfOnly [m1, m2, m3]] := by
  refine ⟨⟨rfl, List.perm_insertionSort _ _, List.sorted_insertionSort _ _,
    rfl⟩, ?_⟩
  intro m1 m2 m3 h12 h23 hperm
  have h3 := sorted_perm_triple (orderByTimestamp (store gigId)) m1 m2 m3
      h12 h23 ((List.perm_insertionSort _ _).trans hperm)
      (List.sorted_insertionSort _ _)
  simp [joinGigChat, orderByTimestamp] at h3 ⊢
  exact h3

/-- Witness for C7: three concrete messages stored out of order are
replayed in ascending timestamp order. -/
theorem chat_replay_ordering_witness :
    (joinGigChat (fun _ => []) "c9"
        (fun _ => [⟨"u3", "three", 30⟩, ⟨"u1", "one", 10⟩, ⟨"u2", "two", 20⟩])
        "g1").2 =
      [.chatHistory .selfOnly
        [⟨"u1", "one", 10⟩, ⟨"u2", "two", 20⟩, ⟨"u3", "three", 30⟩]] :=
  (chat_replay_ordering (fun _ => []) "c9"
      (fun _ => [⟨"u3", "three", 30⟩, ⟨"u1", "one", 10⟩, ⟨"u2", "two", 20⟩])
      "g1").2 ⟨"u1", "one", 10⟩ ⟨"u2", "two", 20⟩ ⟨"u3", "three", 30⟩
    (by decide) (by decide) (by decide)

end Oodoo
